import Mathlib

/-!
A shallow embedding of `src/price.go`: a minimal HTTP service exposing an
in-memory item catalog.  Pure request/response behaviour is modelled as Lean
functions; the server lifecycle of `main` is modelled as a small-step relation.
Go `int` is modelled as `Int`; JSON request bodies are modelled as the result
of a syntactic parse (`Except String Json`) fed to a decoder for the `Item`
shape.
-/

namespace Price

/-- `Item` from src/price.go lines 15-19: Go struct with `ID int`, `Name string`,
`Price int` and JSON tags `id`, `name`, `price`. -/
structure Item where
  id : Int
  name : String
  price : Int

/-- The seed of the in-memory database `items`, src/price.go lines 22-25. -/
def items : List Item :=
  [{ id := 1, name := "Item One", price := 100 },
   { id := 2, name := "Item Two", price := 200 }]

/-- A JSON value, as produced by a successful syntactic parse of a request body. -/
inductive Json where
  | null : Json
  | bool : Bool → Json
  | num : Int → Json
  | str : String → Json
  | arr : List Json → Json
  | obj : List (String × Json) → Json

/-- The kind word Go's decoder uses in its type-mismatch error messages. -/
def Json.goKind : Json → String
  | .null => "null"
  | .bool _ => "bool"
  | .num _ => "number"
  | .str _ => "string"
  | .arr _ => "array"
  | .obj _ => "object"

/-- A response body: the JSON encoding of one item, of the item list, raw file
bytes, or plain text (as written by `http.Error`). -/
inductive Body where
  | jsonItem : Item → Body
  | jsonItems : List Item → Body
  | fileBytes : List Nat → Body
  | text : String → Body

/-- An HTTP response as the handlers build it: status code, the content-type
header if one is set, and the body. -/
structure Response where
  status : Nat
  contentType : Option String
  body : Body

def ctJson : String := "application/json"

def ctPlain : String := "text/plain; charset=utf-8"

/-- `http.Error(w, msg, code)`: plain-text error response carrying `msg`. -/
def httpError (msg : String) (code : Nat) : Response :=
  { status := code, contentType := some ctPlain, body := .text msg }

/-- The zero value a Go `Item` variable starts from (`var newItem Item`,
src/price.go line 56): absent JSON fields keep these values. -/
def zeroItem : Item := { id := 0, name := "", price := 0 }

/-- Modelled from the spec: one step of Go `encoding/json` decoding of an
object field into the `Item` struct (the decoder itself is standard-library
code, not part of this repository).  A known key with the matching JSON type
sets the struct field, a known key with a mismatched type fails with the
decoder's message, and an unknown key is ignored. -/
def applyField (it : Item) (field : String × Json) : Except String Item :=
  if field.1 = "id" then
    match field.2 with
    | .num n => .ok { it with id := n }
    | v => .error ("json: cannot unmarshal " ++ v.goKind ++
        " into Go struct field Item.id of type int")
  else if field.1 = "name" then
    match field.2 with
    | .str s => .ok { it with name := s }
    | v => .error ("json: cannot unmarshal " ++ v.goKind ++
        " into Go struct field Item.name of type string")
  else if field.1 = "price" then
    match field.2 with
    | .num n => .ok { it with price := n }
    | v => .error ("json: cannot unmarshal " ++ v.goKind ++
        " into Go struct field Item.price of type int")
  else .ok it

/-- Modelled from the spec: Go `encoding/json` decoding of a parsed JSON value
into the `Item` shape (standard-library code, not part of this repository).
`null` leaves the zero value, an object is folded field by field with absent
fields keeping their zero values, and any other top-level value fails. -/
def decodeItem : Json → Except String Item
  | .null => .ok zeroItem
  | .obj fields => fields.foldlM applyField zeroItem
  | v => .error ("json: cannot unmarshal " ++ v.goKind ++
      " into Go value of type main.Item")

/-- `decoder.Decode(&newItem)` on the request body, src/price.go lines 57-58:
a syntactically malformed body surfaces the parser's error, a parsed JSON
value is decoded into the `Item` shape. -/
def decodeBody : Except String Json → Except String Item
  | .error e => .error e
  | .ok j => decodeItem j

/-- The outcome of `GetItemsHandler`: the (unchanged) store, the response, and
whether the cancellation log line was written. -/
structure GetOutcome where
  store : List Item
  response : Response
  loggedCancel : Bool

/-- `GetItemsHandler`, src/price.go lines 37-52.  The `select` races a
2-second timer against the request context's cancellation; `cancelledFirst`
records which of the two fired first.  Timer first: 200 with the JSON
encoding of `store`.  Cancellation first: log, then
`http.Error(w, "Request cancelled", http.StatusRequestTimeout)`. -/
def GetItemsHandler (store : List Item) (cancelledFirst : Bool) : GetOutcome :=
  if cancelledFirst then
    { store := store, response := httpError "Request cancelled" 408, loggedCancel := true }
  else
    { store := store,
      response := { status := 200, contentType := some ctJson, body := .jsonItems store },
      loggedCancel := false }

/-- `AddItemHandler`, src/price.go lines 55-71.  Decode failure: 400 with the
error's text, store untouched.  Success: overwrite the decoded item's `ID`
with `len(items) + 1`, append, 201 with the stored item as JSON body. -/
def AddItemHandler (store : List Item) (body : Except String Json) :
    List Item × Response :=
  match decodeBody body with
  | .error e => (store, httpError e 400)
  | .ok newItem =>
      let stored : Item := { newItem with id := (store.length : Int) + 1 }
      (store ++ [stored],
        { status := 201, contentType := some ctJson, body := .jsonItem stored })

/-- Claim C3: on GET /api/items, when the 2-second timer elapses before the
cancellation signal, the handler responds 200 with content-type
application/json and the JSON array of the current store contents in
insertion order, leaving the store unchanged. -/
theorem getItems_timer_ok (store : List Item) :
    GetItemsHandler store false =
      { store := store,
        response := { status := 200, contentType := some ctJson,
                      body := Body.jsonItems store },
        loggedCancel := false } := rfl

/-- Claim C4: on GET /api/items, when the cancellation signal fires before the
2-second timer, the handler responds 408 with plain-text body
"Request cancelled", logs the cancellation, and leaves the store unchanged. -/
theorem getItems_cancelled (store : List Item) :
    (GetItemsHandler store true).response.status = 408
  ∧ (GetItemsHandler store true).response.body = Body.text "Request cancelled"
  ∧ (GetItemsHandler store true).response.contentType = some ctPlain
  ∧ (GetItemsHandler store true).loggedCancel = true
  ∧ (GetItemsHandler store true).store = store :=
  ⟨rfl, rfl, rfl, rfl, rfl⟩

/-- Claim C5: every GET /api/items request ends in exactly one of the two
outcomes — the 200 full-serialization response or the 408 cancellation
response — never both and never neither. -/
theorem getItems_dichotomy (store : List Item) (cancelledFirst : Bool) :
    (((GetItemsHandler store cancelledFirst).response.status = 200
        ∧ (GetItemsHandler store cancelledFirst).response.body = Body.jsonItems store)
      ∨ ((GetItemsHandler store cancelledFirst).response.status = 408
        ∧ (GetItemsHandler store cancelledFirst).response.body
            = Body.text "Request cancelled"))
  ∧ ¬((GetItemsHandler store cancelledFirst).response.status = 200
        ∧ (GetItemsHandler store cancelledFirst).response.status = 408) := by
  cases cancelledFirst <;> simp [GetItemsHandler, httpError]

/-- Claim C1: on POST /api/items with a body that decodes successfully, the
handler responds 201, appends exactly one item, and the stored and returned
item carries identifier = (store length before insert) + 1. -/
theorem addItem_success (store : List Item) (body : Except String Json) (it : Item)
    (h : decodeBody body = Except.ok it) :
    ∃ stored : Item,
      (AddItemHandler store body).1 = store ++ [stored]
    ∧ (AddItemHandler store body).1.length = store.length + 1
    ∧ (AddItemHandler store body).2.status = 201
    ∧ stored.id = (store.length : Int) + 1
    ∧ (AddItemHandler store body).2.body = Body.jsonItem stored := by
  refine ⟨{ it with id := (store.length : Int) + 1 }, ?_⟩
  simp [AddItemHandler, h]

/-- Concrete run of `addItem_success`: POSTing the spec's scenario body
`{"name":"Item Three","price":300}` to the seed store. -/
theorem addItem_success_witness :
    ∃ stored : Item,
      (AddItemHandler items (Except.ok (Json.obj
          [("name", Json.str "Item Three"), ("price", Json.num 300)]))).1
        = items ++ [stored]
    ∧ (AddItemHandler items (Except.ok (Json.obj
          [("name", Json.str "Item Three"), ("price", Json.num 300)]))).1.length
        = items.length + 1
    ∧ (AddItemHandler items (Except.ok (Json.obj
          [("name", Json.str "Item Three"), ("price", Json.num 300)]))).2.status = 201
    ∧ stored.id = (items.length : Int) + 1
    ∧ (AddItemHandler items (Except.ok (Json.obj
          [("name", Json.str "Item Three"), ("price", Json.num 300)]))).2.body
        = Body.jsonItem stored :=
  addItem_success items _ { id := 0, name := "Item Three", price := 300 } rfl

/-- Claim C2: on POST /api/items with a body that fails to decode, the handler
responds 400 with the decoder error's text as plain-text body and the store is
returned unchanged — same length, same contents. -/
theorem addItem_malformed (store : List Item) (body : Except String Json) (e : String)
    (h : decodeBody body = Except.error e) :
    AddItemHandler store body = (store, httpError e 400) := by
  simp [AddItemHandler, h]

/-- Concrete run of `addItem_malformed`: a body whose syntactic JSON parse
failed with "unexpected EOF". -/
theorem addItem_malformed_witness :
    AddItemHandler items (Except.error "unexpected EOF")
      = (items, httpError "unexpected EOF" 400) :=
  addItem_malformed items (Except.error "unexpected EOF") "unexpected EOF" rfl

/-- Claim C7: on a successfully decoded POST body, the client-supplied
identifier is overwritten with the assigned one, while name and price of
the stored and returned record equal those of the request body. -/
theorem addItem_id_ignored (store : List Item) (body : Except String Json) (it : Item)
    (h : decodeBody body = Except.ok it) :
    ∃ stored : Item,
      (AddItemHandler store body).1 = store ++ [stored]
    ∧ (AddItemHandler store body).2.body = Body.jsonItem stored
    ∧ stored.id = (store.length : Int) + 1
    ∧ stored.name = it.name
    ∧ stored.price = it.price := by
  refine ⟨{ it with id := (store.length : Int) + 1 }, ?_⟩
  simp [AddItemHandler, h]

/-- Concrete run of `addItem_id_ignored`: the client supplies `"id": 99`, yet
the stored identifier is 3 on the seed store. -/
theorem addItem_id_ignored_witness :
    ∃ stored : Item,
      (AddItemHandler items (Except.ok (Json.obj
          [("id", Json.num 99), ("name", Json.str "X"), ("price", Json.num 5)]))).1
        = items ++ [stored]
    ∧ (AddItemHandler items (Except.ok (Json.obj
          [("id", Json.num 99), ("name", Json.str "X"), ("price", Json.num 5)]))).2.body
        = Body.jsonItem stored
    ∧ stored.id = (items.length : Int) + 1
    ∧ stored.name = "X"
    ∧ stored.price = 5 :=
  addItem_id_ignored items _ { id := 99, name := "X", price := 5 } rfl

/-- An operation on the Item Store, as the two API handlers perform them:
a GET /api/items read (with its race outcome) or a POST /api/items create
(with its request body's parse result). -/
inductive StoreOp where
  | listReq : Bool → StoreOp
  | createReq : Except String Json → StoreOp

/-- The store after one handler invocation. -/
def applyOp (store : List Item) : StoreOp → List Item
  | .listReq cancelledFirst => (GetItemsHandler store cancelledFirst).store
  | .createReq body => (AddItemHandler store body).1

theorem applyOp_unchanged_or_append (store : List Item) (op : StoreOp) :
    applyOp store op = store ∨ ∃ it, applyOp store op = store ++ [it] := by
  cases op with
  | listReq c => left; cases c <;> rfl
  | createReq body =>
    cases hd : decodeBody body with
    | error e => left; simp [applyOp, AddItemHandler, hd]
    | ok it =>
      right
      refine ⟨{ it with id := (store.length : Int) + 1 }, ?_⟩
      simp [applyOp, AddItemHandler, hd]

theorem foldl_applyOp_keeps_previous (ops : List StoreOp) :
    ∀ store : List Item,
      (List.foldl applyOp store ops).take store.length = store := by
  induction ops with
  | nil => intro store; simp
  | cons op ops ih =>
    intro store
    rcases applyOp_unchanged_or_append store op with h | ⟨it, h⟩
    · simpa [h] using ih store
    · have h2 := ih (store ++ [it])
      have hlen : store.length ≤ (store ++ [it]).length := by simp
      calc (List.foldl applyOp store (op :: ops)).take store.length
          = ((List.foldl applyOp (store ++ [it]) ops).take
              (store ++ [it]).length).take store.length := by
            rw [List.take_take, min_eq_left hlen, List.foldl_cons, h]
        _ = (store ++ [it]).take store.length := by rw [h2]
        _ = store := by simp

/-- Claim C6: every handler invocation either leaves the store unchanged or
appends exactly one item at the end, and across any sequence of handler
invocations the previously stored items are never modified, removed or
reordered: the old store survives as the initial segment of the new one. -/
theorem store_append_only (store : List Item) (op : StoreOp) (ops : List StoreOp) :
    (applyOp store op = store ∨ ∃ it, applyOp store op = store ++ [it])
  ∧ (List.foldl applyOp store ops).take store.length = store :=
  ⟨applyOp_unchanged_or_append store op, foldl_applyOp_keeps_previous ops store⟩

/-- A Go channel of OS signals (`chan os.Signal`): its capacity, the set of
signals `signal.Notify` has subscribed it to, and its buffered contents.
Signals are identified by their number. -/
structure SignalChan where
  capacity : Nat
  subscribed : List Nat
  buffer : List Nat

/-- `quit := make(chan os.Signal, 1)`, src/price.go line 117.  No
`signal.Notify(quit, ...)` call appears anywhere in the source, so the
channel is subscribed to no signal. -/
def quit : SignalChan := { capacity := 1, subscribed := [], buffer := [] }

/-- The phases of the server lifecycle described in the spec. -/
inductive Phase where
  | starting
  | serving
  | shuttingDown
  | stopped

/-- The lifecycle state of `main`: the current phase and the quit channel. -/
structure LifeState where
  phase : Phase
  chan : SignalChan

/-- Small-step semantics of `main`'s lifecycle, src/price.go lines 108-127:
the goroutine starts serving; the OS can deliver a signal into a channel only
if the channel is subscribed to it and has buffer room; `<-quit` completes
only when the channel holds a signal, after which `srv.Shutdown` runs the
graceful-shutdown sequence. -/
inductive LifeStep : LifeState → LifeState → Prop where
  | serve (q : SignalChan) :
      LifeStep ⟨.starting, q⟩ ⟨.serving, q⟩
  | deliver (ph : Phase) (q : SignalChan) (sig : Nat)
      (hs : sig ∈ q.subscribed) (hc : q.buffer.length < q.capacity) :
      LifeStep ⟨ph, q⟩ ⟨ph, { q with buffer := q.buffer ++ [sig] }⟩
  | receiveQuit (q : SignalChan) (sig : Nat) (rest : List Nat)
      (hb : q.buffer = sig :: rest) :
      LifeStep ⟨.serving, q⟩ ⟨.shuttingDown, { q with buffer := rest }⟩
  | shutdownDone (q : SignalChan) :
      LifeStep ⟨.shuttingDown, q⟩ ⟨.stopped, q⟩

theorem lifecycle_invariant (s : LifeState)
    (h : Relation.ReflTransGen LifeStep ⟨Phase.starting, quit⟩ s) :
    (s.phase = Phase.starting ∨ s.phase = Phase.serving)
  ∧ s.chan.subscribed = [] ∧ s.chan.buffer = [] := by
  induction h with
  | refl => exact ⟨Or.inl rfl, rfl, rfl⟩
  | tail _ hstep ih =>
    obtain ⟨hph, hsub, hbuf⟩ := ih
    cases hstep with
    | serve q => exact ⟨Or.inr rfl, hsub, hbuf⟩
    | deliver ph q sig hs hc => rw [hsub] at hs; cases hs
    | receiveQuit q sig rest hb => rw [hbuf] at hb; cases hb
    | shutdownDone q => rcases hph with h | h <;> cases h

/-- Claim C8: starting from `main`'s initial lifecycle state, no reachable
state is in the shutting-down phase and none has completed the graceful
shutdown: nothing is ever subscribed to the quit channel, so the receive on
it never completes and the graceful-shutdown sequence never runs. -/
theorem shutdown_unreachable (s : LifeState)
    (h : Relation.ReflTransGen LifeStep ⟨Phase.starting, quit⟩ s) :
    s.phase ≠ Phase.shuttingDown ∧ s.phase ≠ Phase.stopped
  ∧ s.chan.subscribed = [] ∧ s.chan.buffer = [] := by
  obtain ⟨hph, hsub, hbuf⟩ := lifecycle_invariant s h
  rcases hph with h' | h' <;> rw [h'] <;> exact ⟨by simp, by simp, hsub, hbuf⟩

/-- Concrete run of `shutdown_unreachable`: the state after the goroutine has
begun serving is reachable and is neither shutting down nor stopped. -/
theorem shutdown_unreachable_witness :
    (⟨Phase.serving, quit⟩ : LifeState).phase ≠ Phase.shuttingDown
  ∧ (⟨Phase.serving, quit⟩ : LifeState).phase ≠ Phase.stopped
  ∧ (⟨Phase.serving, quit⟩ : LifeState).chan.subscribed = []
  ∧ (⟨Phase.serving, quit⟩ : LifeState).chan.buffer = [] :=
  shutdown_unreachable ⟨Phase.serving, quit⟩
    (Relation.ReflTransGen.single (LifeStep.serve quit))

def goPre : List Char → List Char → Bool
  | [], _ => true
  | _ :: _, [] => false
  | c :: cs, d :: ds => c == d && goPre cs ds

/-- `strings.HasPrefix p` applied to a request path, as the route wiring in
`main` tests it, computed on the underlying character list. -/
def strHasPre (p s : String) : Bool := goPre p.data s.data

/-- Dropping the first `n` characters of the path, on the underlying
character list. -/
def strDropN (s : String) (n : Nat) : String := ⟨s.data.drop n⟩

/-- Modelled from the spec: `http.FileServer(http.Dir("./static"))`, an
external static-file-serving collaborator.  The directory tree beneath
`./static` is abstracted as a partial map from relative paths to file bytes,
and the extension-inferred content type as a map from paths to a type
string. -/
structure StaticFS where
  file : String → Option (List Nat)
  inferredType : String → String

/-- Modelled from the spec: the file server's response for a relative path —
the file's bytes with its inferred content type when the path resolves to a
file, 404 otherwise. -/
def fileServer (fs : StaticFS) (rel : String) : Response :=
  match fs.file rel with
  | some bytes =>
      { status := 200, contentType := some (fs.inferredType rel),
        body := .fileBytes bytes }
  | none => httpError "404 page not found" 404

/-- The static route wired in `main`, src/price.go line 91: a request path
carrying the `/static/` route marker is served by the file server on the
remainder of the path (the first 8 characters stripped), resolved beneath
`./static`. -/
def staticRoute (fs : StaticFS) (path : String) : Response :=
  if strHasPre "/static/" path then fileServer fs (strDropN path 8)
  else httpError "404 page not found" 404

/-- Claim C9: for every GET /static/* request, the static handler strips the
`/static/` route marker from the path and resolves the remainder beneath the
local static directory, returning the file bytes with the extension-inferred
content type, or 404 when the file is absent. -/
theorem static_serving (fs : StaticFS) (path : String)
    (h : strHasPre "/static/" path = true) :
    (∀ bytes, fs.file (strDropN path 8) = some bytes →
        staticRoute fs path =
          { status := 200, contentType := some (fs.inferredType (strDropN path 8)),
            body := Body.fileBytes bytes })
  ∧ (fs.file (strDropN path 8) = none → (staticRoute fs path).status = 404) := by
  constructor
  · intro bytes hb
    simp [staticRoute, h, fileServer, hb]
  · intro hn
    simp [staticRoute, h, fileServer, hn, httpError]

/-- A one-file static directory for the concrete run: `index.html` holding
the bytes of `<h1>`. -/
def demoFS : StaticFS :=
  { file := fun p => if p = "index.html" then some [60, 104, 49, 62] else none,
    inferredType := fun _ => "text/html; charset=utf-8" }

/-- Concrete run of `static_serving` on the path `/static/index.html` against
the one-file directory. -/
theorem static_serving_witness :
    (∀ bytes, demoFS.file (strDropN "/static/index.html" 8) = some bytes →
        staticRoute demoFS "/static/index.html" =
          { status := 200,
            contentType := some (demoFS.inferredType (strDropN "/static/index.html" 8)),
            body := Body.fileBytes bytes })
  ∧ (demoFS.file (strDropN "/static/index.html" 8) = none →
      (staticRoute demoFS "/static/index.html").status = 404) :=
  static_serving demoFS "/static/index.html" (by decide)

/-- Whether one JSON object field passes Go's decoder for the `Item` shape:
each known key needs the matching JSON type, every unknown key is accepted
and ignored. -/
def fieldOk (field : String × Json) : Bool :=
  if field.1 = "id" then
    match field.2 with
    | .num _ => true
    | _ => false
  else if field.1 = "name" then
    match field.2 with
    | .str _ => true
    | _ => false
  else if field.1 = "price" then
    match field.2 with
    | .num _ => true
    | _ => false
  else true

theorem applyField_ok (acc : Item) (field : String × Json)
    (h : fieldOk field = true) :
    ∃ upd : Item, applyField acc field = Except.ok upd
      ∧ (field.1 ≠ "name" → upd.name = acc.name)
      ∧ (field.1 ≠ "price" → upd.price = acc.price) := by
  obtain ⟨k, v⟩ := field
  by_cases hk1 : k = "id" <;> by_cases hk2 : k = "name" <;>
    by_cases hk3 : k = "price" <;> cases v <;>
    simp_all [fieldOk, applyField]

theorem foldlM_applyField_ok (fields : List (String × Json)) :
    ∀ acc : Item, (∀ p ∈ fields, fieldOk p = true) →
      ∃ it : Item, fields.foldlM applyField acc = Except.ok it
        ∧ ((∀ p ∈ fields, p.1 ≠ "name") → it.name = acc.name)
        ∧ ((∀ p ∈ fields, p.1 ≠ "price") → it.price = acc.price) := by
  induction fields with
  | nil =>
    intro acc _
    exact ⟨acc, rfl, fun _ => rfl, fun _ => rfl⟩
  | cons p fields ih =>
    intro acc hall
    obtain ⟨upd, hupd, hname, hprice⟩ := applyField_ok acc p (hall p (by simp))
    obtain ⟨it, hit, hn2, hp2⟩ := ih upd (fun q hq => hall q (by simp [hq]))
    refine ⟨it, ?_, ?_, ?_⟩
    · rw [List.foldlM_cons, hupd]
      exact hit
    · intro hno
      rw [hn2 (fun q hq => hno q (by simp [hq]))]
      exact hname (hno p (by simp))
    · intro hno
      rw [hp2 (fun q hq => hno q (by simp [hq]))]
      exact hprice (hno p (by simp))

/-- Claim C10: the 400 branch of POST /api/items fires exactly on decode
failure; a syntactically valid JSON object whose present fields have the
right types — fields may be omitted, as in `{}` or a name-only body — still
gets 201, and the appended item's omitted fields keep their zero values
(empty name, price 0): no field-presence or range validation is performed. -/
theorem addItem_no_validation (store : List Item) (fields : List (String × Json))
    (h : ∀ p ∈ fields, fieldOk p = true) :
    ∃ it : Item,
      (AddItemHandler store (Except.ok (Json.obj fields))).1 = store ++ [it]
    ∧ (AddItemHandler store (Except.ok (Json.obj fields))).2.status = 201
    ∧ ((∀ p ∈ fields, p.1 ≠ "name") → it.name = "")
    ∧ ((∀ p ∈ fields, p.1 ≠ "price") → it.price = 0)
    ∧ (∀ b : Except String Json,
        ((AddItemHandler store b).2.status = 400 ↔ ∃ e, decodeBody b = Except.error e)) := by
  obtain ⟨dec, hdec, hn, hp⟩ := foldlM_applyField_ok fields zeroItem h
  have hbody : decodeBody (Except.ok (Json.obj fields)) = Except.ok dec := hdec
  refine ⟨{ dec with id := (store.length : Int) + 1 }, ?_, ?_, ?_, ?_, ?_⟩
  · simp [AddItemHandler, hbody]
  · simp [AddItemHandler, hbody]
  · intro hno
    exact hn hno
  · intro hno
    exact hp hno
  · intro b
    cases hb : decodeBody b with
    | error e => simp [AddItemHandler, hb, httpError]
    | ok j => simp [AddItemHandler, hb]

/-- Concrete run of `addItem_no_validation`: POSTing the empty object `{}`
to the seed store. -/
theorem addItem_no_validation_witness :
    ∃ it : Item,
      (AddItemHandler items (Except.ok (Json.obj []))).1 = items ++ [it]
    ∧ (AddItemHandler items (Except.ok (Json.obj []))).2.status = 201
    ∧ ((∀ p ∈ ([] : List (String × Json)), p.1 ≠ "name") → it.name = "")
    ∧ ((∀ p ∈ ([] : List (String × Json)), p.1 ≠ "price") → it.price = 0)
    ∧ (∀ b : Except String Json,
        ((AddItemHandler items b).2.status = 400 ↔ ∃ e, decodeBody b = Except.error e)) :=
  addItem_no_validation items [] (by simp)

end Price
